import Mathlib

/-!
# Verification of the sonar-agent fix-orchestration core

A shallow embedding, in Lean 4, of the core components of the `sonar-agent`
repository (Python): the fingerprint store (`sonar/issue_tracker.py`), the
batch commit managers (`git/github_client.py`, `gitlab_client.py`), the
retrying completion client (`ai/mistral_client.py`), the cost calculators
(`ai_client.py`, `ai/mistral_client.py`), the AI-response code extraction
(`code_smell_processor.py`), and the fix orchestrator loop (`main.py`).

External effects (SQLite, HTTP, the AI provider, the Git hosts, the clock and
the random jitter) are modelled as explicit state passing and oracle
parameters; all embedded functions are executable and decidable on concrete
inputs.
-/

namespace SonarAgent

/-! ## SHA-256 (as used by `IssueTracker._calculate_file_hash`)

`hashlib.sha256(file_content.encode('utf-8')).hexdigest()` — implemented here
over byte lists (`Nat` values below 256), with 32-bit words as `Nat` reduced
modulo `2^32`. -/

/-- Reduce to a 32-bit word. -/
def w32 (n : Nat) : Nat := n % 4294967296

/-- 32-bit addition. -/
def add32 (a b : Nat) : Nat := (a + b) % 4294967296

/-- Rotate a 32-bit word right by `k`. -/
def rotr32 (k n : Nat) : Nat := w32 (n / 2 ^ k + n % 2 ^ k * 2 ^ (32 - k))

/-- Bitwise complement of a 32-bit word. -/
def not32 (n : Nat) : Nat := Nat.xor n 4294967295

/-- SHA-256 `Ch(e, f, g)`. -/
def shaCh (e f g : Nat) : Nat := Nat.xor (Nat.land e f) (Nat.land (not32 e) g)

/-- SHA-256 `Maj(a, b, c)`. -/
def shaMaj (a b c : Nat) : Nat :=
  Nat.xor (Nat.land a b) (Nat.xor (Nat.land a c) (Nat.land b c))

/-- SHA-256 small sigma 0. -/
def ssig0 (x : Nat) : Nat := Nat.xor (Nat.xor (rotr32 7 x) (rotr32 18 x)) (x / 2 ^ 3)

/-- SHA-256 small sigma 1. -/
def ssig1 (x : Nat) : Nat := Nat.xor (Nat.xor (rotr32 17 x) (rotr32 19 x)) (x / 2 ^ 10)

/-- SHA-256 big sigma 0. -/
def bsig0 (x : Nat) : Nat := Nat.xor (Nat.xor (rotr32 2 x) (rotr32 13 x)) (rotr32 22 x)

/-- SHA-256 big sigma 1. -/
def bsig1 (x : Nat) : Nat := Nat.xor (Nat.xor (rotr32 6 x) (rotr32 11 x)) (rotr32 25 x)

/-- The 64 SHA-256 round constants. -/
def shaK : Array Nat := #[
  1116352408, 1899447441, 3049323471, 3921009573, 961987163,
  1508970993, 2453635748, 2870763221, 3624381080, 310598401,
  607225278, 1426881987, 1925078388, 2162078206, 2614888103,
  3248222580, 3835390401, 4022224774, 264347078, 604807628,
  770255983, 1249150122, 1555081692, 1996064986, 2554220882,
  2821834349, 2952996808, 3210313671, 3336571891, 3584528711,
  113926993, 338241895, 666307205, 773529912, 1294757372,
  1396182291, 1695183700, 1986661051, 2177026350, 2456956037,
  2730485921, 2820302411, 3259730800, 3345764771, 3516065817,
  3600352804, 4094571909, 275423344, 430227734, 506948616,
  659060556, 883997877, 958139571, 1322822218, 1537002063,
  1747873779, 1955562222, 2024104815, 2227730452, 2361852424,
  2428436474, 2756734187, 3204031479, 3329325298]

/-- The SHA-256 initial hash state. -/
def shaH0 : List Nat :=
  [1779033703, 3144134277, 1013904242, 2773480762,
   1359893119, 2600822924, 528734635, 1541459225]

/-- Big-endian byte encoding of `v` on `n` bytes. -/
def beBytes (n v : Nat) : List Nat :=
  (List.range n).map fun i => v / 2 ^ (8 * (n - 1 - i)) % 256

/-- SHA-256 padding: append `0x80`, zeros, then the 64-bit big-endian bit length. -/
def sha256Pad (msg : List Nat) : List Nat :=
  let len := msg.length
  let padZeros := (119 - len % 64) % 64
  msg ++ [128] ++ List.replicate padZeros 0 ++ beBytes 8 (8 * len)

/-- The 16 big-endian 32-bit words of one 64-byte block. -/
def wordsOfBlock (b : List Nat) : Array Nat :=
  ((List.range 16).map fun i =>
    b.getD (4 * i) 0 * 16777216 + b.getD (4 * i + 1) 0 * 65536 +
    b.getD (4 * i + 2) 0 * 256 + b.getD (4 * i + 3) 0).toArray

/-- Extend the 16 block words to the 64-entry message schedule. -/
def extendSchedule (ws : Array Nat) : Array Nat :=
  (List.range 48).foldl (fun arr i =>
    let j := i + 16
    arr.push (w32 (ssig1 (arr.getD (j - 2) 0) + arr.getD (j - 7) 0 +
      ssig0 (arr.getD (j - 15) 0) + arr.getD (j - 16) 0))) ws

/-- One round of the SHA-256 compression function.  The state is the 8-tuple
`(a, b, c, d, e, f, g, h)` as a list. -/
def shaRound (w : Array Nat) (st : List Nat) (i : Nat) : List Nat :=
  let a := st.getD 0 0
  let b := st.getD 1 0
  let c := st.getD 2 0
  let d := st.getD 3 0
  let e := st.getD 4 0
  let f := st.getD 5 0
  let g := st.getD 6 0
  let hh := st.getD 7 0
  let t1 := w32 (hh + bsig1 e + shaCh e f g + shaK.getD i 0 + w.getD i 0)
  let t2 := w32 (bsig0 a + shaMaj a b c)
  [add32 t1 t2, a, b, c, add32 d t1, e, f, g]

/-- Compress one 64-byte block into the running hash state. -/
def compressBlock (st : List Nat) (block : List Nat) : List Nat :=
  let w := extendSchedule (wordsOfBlock block)
  let fin := (List.range 64).foldl (shaRound w) st
  List.zipWith add32 st fin

/-- Split a byte list into 64-byte blocks. -/
def toBlocks (l : List Nat) : List (List Nat) :=
  if h : l = [] then [] else
    l.take 64 :: toBlocks (l.drop 64)
termination_by l.length
decreasing_by
  simp only [List.length_drop]
  have : 0 < l.length := List.length_pos.mpr h
  omega

/-- The SHA-256 digest state of a byte message. -/
def sha256State (msg : List Nat) : List Nat :=
  (toBlocks (sha256Pad msg)).foldl compressBlock shaH0

/-- The 32 digest bytes of a byte message. -/
def sha256Bytes (msg : List Nat) : List Nat :=
  (sha256State msg).flatMap (beBytes 4)

/-- Lower-case hex character of a value below 16. -/
def hexChar (n : Nat) : Char :=
  if n < 10 then Char.ofNat (48 + n) else Char.ofNat (87 + n)

/-- Two lower-case hex characters of a byte. -/
def byteHex (b : Nat) : List Char := [hexChar (b / 16), hexChar (b % 16)]

/-- Lower-case hex digest of a byte message, as `hexdigest()` returns it. -/
def sha256Hex (msg : List Nat) : String :=
  String.mk ((sha256Bytes msg).flatMap byteHex)

/-- UTF-8 encoding of a single character (Lean `Char` excludes surrogates,
exactly as Python `str` code points encode). -/
def utf8Bytes (c : Char) : List Nat :=
  let n := c.toNat
  if n < 128 then [n]
  else if n < 2048 then [192 + n / 64, 128 + n % 64]
  else if n < 65536 then [224 + n / 4096, 128 + n / 64 % 64, 128 + n % 64]
  else [240 + n / 262144, 128 + n / 4096 % 64, 128 + n / 64 % 64, 128 + n % 64]

/-- `IssueTracker._calculate_file_hash`: SHA-256 hex digest of the UTF-8
encoding of the content. -/
def calculateFileHash (s : String) : String :=
  sha256Hex (s.toList.flatMap utf8Bytes)

/-! ## Data model

`CodeSmell` as declared in `main.py` / consumed by `issue_tracker.py`:
the fields the core reads (`key`, `file_path`, `rule`, `message`,
`severity`, lines, debt). -/

/-- One static-analysis finding (`CodeSmell` dataclass). -/
structure CodeSmell where
  key : String
  file_path : String
  message : String
  start_line : Nat
  end_line : Nat
  debt_minutes : Nat
  rule : String
  severity : String
deriving DecidableEq, Repr

/-! ## Fingerprint store (`sonar/issue_tracker.py`)

The SQLite table `fixed_issues` has a `UNIQUE(issue_key, branch)` constraint;
`INSERT OR REPLACE` deletes the conflicting row and appends the new one.  The
table is modelled as a row list in rowid order; `SELECT ... WHERE issue_key =
? AND branch = ?` with `fetchone` returns the first matching row; `DELETE`
removes every matching row. -/

/-- One row of the `fixed_issues` table (`FixedIssue` dataclass). -/
structure FixedRow where
  issue_key : String
  file_path : String
  rule : String
  message : String
  branch : String
  commit_id : Option String
  fixed_at : Nat
  file_hash : String
deriving DecidableEq, Repr

/-- The `fixed_issues` table, rows in rowid order. -/
abbrev Db := List FixedRow

/-- Does a row match the `(issue_key, branch)` WHERE clause? -/
def rowMatches (key branch : String) (r : FixedRow) : Bool :=
  r.issue_key = key && r.branch = branch

/-- `SELECT ... WHERE issue_key = ? AND branch = ?` with `fetchone`. -/
def lookupFixed (db : Db) (key branch : String) : Option FixedRow :=
  db.find? (rowMatches key branch)

/-- `IssueTracker._remove_fixed_issue`: `DELETE FROM fixed_issues WHERE
issue_key = ? AND branch = ?`. -/
def removeFixedIssue (db : Db) (key branch : String) : Db :=
  db.filter (fun r => !rowMatches key branch r)

/-- `IssueTracker.is_issue_fixed`.  Returns the boolean result and the table
after the call (a stale record is deleted on hash mismatch). -/
def isIssueFixed (db : Db) (smell : CodeSmell) (branch : String)
    (currentFileContent : Option String) : Bool × Db :=
  match lookupFixed db smell.key branch with
  | none => (false, db)
  | some row =>
    match currentFileContent with
    | some content =>
      if calculateFileHash content ≠ row.file_hash then
        (false, removeFixedIssue db smell.key branch)
      else
        (true, db)
    | none => (true, db)

/-- The row `mark_issue_fixed` inserts.  Note the Python truthiness test
`if file_content`: an absent *or empty* content is hashed as the literal
empty string `""` rather than the SHA-256 of `""`. -/
def mkFixedRow (smell : CodeSmell) (branch : String) (commitId : Option String)
    (fileContent : Option String) (now : Nat) : FixedRow :=
  let fileHash :=
    match fileContent with
    | some c => if c ≠ "" then calculateFileHash c else ""
    | none => ""
  { issue_key := smell.key, file_path := smell.file_path, rule := smell.rule,
    message := smell.message, branch := branch, commit_id := commitId,
    fixed_at := now, file_hash := fileHash }

/-- `IssueTracker.mark_issue_fixed`.  `storageOk = false` models a
`sqlite3.Error` raised by the storage layer: the exception is caught, the
transaction is not committed, and the method returns `False`. -/
def markIssueFixed (storageOk : Bool) (db : Db) (smell : CodeSmell)
    (branch : String) (commitId : Option String) (fileContent : Option String)
    (now : Nat) : Bool × Db :=
  if !storageOk then
    (false, db)
  else
    (true, removeFixedIssue db smell.key branch ++
      [mkFixedRow smell branch commitId fileContent now])

/-- The uniqueness invariant enforced by `UNIQUE(issue_key, branch)`: at most
one row per (issue key, branch) pair. -/
def atMostOnePerKey (db : Db) : Prop :=
  ∀ k b : String, (db.filter (rowMatches k b)).length ≤ 1

/-- `IssueTracker.filter_unfixed_issues`: the per-finding loop, threading the
table through each `is_issue_fixed` call (no content supplied). -/
def filterUnfixedIssues (db : Db) (smells : List CodeSmell) (branch : String) :
    List CodeSmell × Db :=
  match smells with
  | [] => ([], db)
  | s :: rest =>
    let (fixed, db1) := isIssueFixed db s branch none
    let (out, db2) := filterUnfixedIssues db1 rest branch
    (if fixed then out else s :: out, db2)

/-! ## GitHub batch committer (`git/github_client.py`)

`GitHubBatchCommitter` keeps `pending_files` as a Python dict (insertion
order, latest write wins per path) and commits per file sequentially through
`GitHubClient.update_file`.  The outcome of each `update_file` network call is
an oracle `updateFails : path → Bool` (`update_file` catches its own request
errors and returns a failure `CommitResult`; it never raises). -/

/-- `CommitResult` of `github_client.py`. -/
structure GHCommitResult where
  success : Bool
  commit_sha : Option String := none
  error : Option String := none
  message : Option String := none
deriving DecidableEq, Repr

/-- `GitHubBatchCommitter` mutable state. -/
structure GHState where
  pending_files : List (String × String)
  commit_count : Nat
deriving DecidableEq, Repr

/-- Python dict upsert, preserving insertion order. -/
def dictUpsert (entries : List (String × String)) (path content : String) :
    List (String × String) :=
  if entries.any (fun e => e.1 = path) then
    entries.map (fun e => if e.1 = path then (path, content) else e)
  else
    entries ++ [(path, content)]

/-- `GitHubBatchCommitter.add_file`. -/
def ghAddFile (st : GHState) (path content : String) : GHState :=
  { st with pending_files := dictUpsert st.pending_files path content }

/-- `GitHubBatchCommitter.should_commit`. -/
def ghShouldCommit (batchSize : Nat) (st : GHState) : Bool :=
  st.pending_files.length ≥ batchSize

/-- `GitHubBatchCommitter.get_pending_count`. -/
def ghPendingCount (st : GHState) : Nat := st.pending_files.length

/-- Observable outcome of `GitHubBatchCommitter.commit_batch`: the returned
`CommitResult`, the per-file partition built by the loop (the
`successful_commits` and `failed_commits` locals, in pending order), and the
committer state after the call. -/
structure GHBatchOutcome where
  result : GHCommitResult
  successful_commits : List String
  failed_commits : List String
  state : GHState
deriving DecidableEq, Repr

/-- `GitHubBatchCommitter.commit_batch`: sequential per-file commits.  Every
pending file is attempted; successes and failures are partitioned; the
pending dict is cleared and the counter incremented unconditionally after the
loop. -/
def ghCommitBatch (updateFails : String → Bool) (st : GHState) : GHBatchOutcome :=
  if st.pending_files = [] then
    { result := { success := true, message := some "No files to commit" },
      successful_commits := [], failed_commits := [], state := st }
  else
    let successful : List String :=
      (st.pending_files.filter (fun e => !updateFails e.1)).map (fun e => e.1)
    let failed : List String :=
      (st.pending_files.filter (fun e => updateFails e.1)).map (fun e => e.1)
    let st1 : GHState := { pending_files := [], commit_count := st.commit_count + 1 }
    if failed ≠ [] then
      let r : GHCommitResult :=
        { success := decide (successful.length > 0),
          message := some ("Committed " ++ toString successful.length ++ "/" ++
            toString (successful.length + failed.length) ++ " files"),
          error := some ("Failed files: " ++ toString failed) }
      { result := r, successful_commits := successful, failed_commits := failed,
        state := st1 }
    else
      let r : GHCommitResult :=
        { success := true,
          message := some ("Successfully committed " ++ toString successful.length ++
            " files") }
      { result := r, successful_commits := successful, failed_commits := failed,
        state := st1 }

/-- `GitHubBatchCommitter.commit_remaining`. -/
def ghCommitRemaining (updateFails : String → Bool) (st : GHState) :
    Option GHCommitResult × GHState :=
  if st.pending_files ≠ [] then
    let o := ghCommitBatch updateFails st
    (some o.result, o.state)
  else
    (none, st)

/-! ## GitLab batch committer (`gitlab_client.py`)

`GitLabBatchCommitter` keeps `pending_files` as a plain list of `GitLabFile`
and delegates to the atomic multi-file `GitLabClient.batch_commit`, whose
network outcome is the oracle `hostOk` (`batch_commit` catches
`GitlabError` and returns a failure result). -/

/-- `GitLabFile` dataclass. -/
structure GitLabFile where
  file_path : String
  content : String
  action : String := "update"
deriving DecidableEq, Repr

/-- `CommitResult` of `gitlab_client.py`. -/
structure GLCommitResult where
  success : Bool
  commit_id : Option String := none
  commit_url : Option String := none
  error : Option String := none
deriving DecidableEq, Repr

/-- `GitLabBatchCommitter` mutable state. -/
structure GLState where
  pending_files : List GitLabFile
  commit_count : Nat
deriving DecidableEq, Repr

/-- `GitLabBatchCommitter.add_file`. -/
def glAddFile (st : GLState) (path content : String) : GLState :=
  { st with pending_files := st.pending_files ++ [{ file_path := path, content := content }] }

/-- `GitLabBatchCommitter.should_commit`. -/
def glShouldCommit (batchSize : Nat) (st : GLState) : Bool :=
  st.pending_files.length ≥ batchSize

/-- `GitLabBatchCommitter.get_pending_count`. -/
def glPendingCount (st : GLState) : Nat := st.pending_files.length

/-- `GitLabBatchCommitter.commit_batch`: an empty batch returns a *failure*
result and changes nothing; otherwise the counter is incremented up front,
the atomic host commit is attempted, and pending files are cleared only on
success. -/
def glCommitBatch (hostOk : Bool) (commitId : String) (st : GLState) :
    GLCommitResult × GLState :=
  if st.pending_files = [] then
    ({ success := false, error := some "No files to commit" }, st)
  else
    let st1 : GLState := { st with commit_count := st.commit_count + 1 }
    if hostOk then
      ({ success := true, commit_id := some commitId },
       { st1 with pending_files := [] })
    else
      ({ success := false, error := some "Error committing to GitLab" }, st1)

/-- `GitLabBatchCommitter.commit_remaining`. -/
def glCommitRemaining (hostOk : Bool) (commitId : String) (st : GLState) :
    Option GLCommitResult × GLState :=
  if st.pending_files ≠ [] then
    let (r, st1) := glCommitBatch hostOk commitId st
    (some r, st1)
  else
    (none, st)

/-- Add a list of files to a GitHub committer (`add_file` repeatedly). -/
def ghAddAll (files : List (String × String)) (st : GHState) : GHState :=
  files.foldl (fun s e => ghAddFile s e.1 e.2) st

/-- Add a list of files to a GitLab committer (`add_file` repeatedly). -/
def glAddAll (files : List (String × String)) (st : GLState) : GLState :=
  files.foldl (fun s e => glAddFile s e.1 e.2) st

/-! ## Retrying completion client (`ai/mistral_client.py`)

`MistralAIClient._make_request` loops over attempt indices `0..max_retries`.
The outcome of one attempt (HTTP post plus `_process_response` parsing) is an
oracle `attemptResult : Nat → Option (String × MistralTokenUsage)`: `none`
covers a network error, a non-200 status, or a response-parsing exception —
all caught by the same `except` clause.  The jitter `random.uniform(0, 1)` of
each backoff sleep is a parameter `jitter : Nat → ℚ`. -/

/-- `MistralTokenUsage` dataclass; cost in exact rationals. -/
structure MistralTokenUsage where
  prompt_tokens : Nat := 0
  completion_tokens : Nat := 0
  total_tokens : Nat := 0
  cost_usd : ℚ := 0
deriving DecidableEq, Repr

/-- Observable outcome of `_make_request`: the returned pair, plus the number
of attempts performed and the sequence of backoff sleeps. -/
structure RetryOutcome where
  content : Option String
  usage : MistralTokenUsage
  attempts : Nat
  sleeps : List ℚ
deriving DecidableEq, Repr

/-- The backoff delay before retrying after failed attempt `i`:
`base_delay * (2 ** attempt) + random.uniform(0, 1)`. -/
def backoffDelay (baseDelay : ℚ) (jitter : Nat → ℚ) (i : Nat) : ℚ :=
  baseDelay * 2 ^ i + jitter i

/-- The retry loop of `_make_request`, from attempt index `idx` with
`remaining` attempts allowed. -/
def requestLoop (attemptResult : Nat → Option (String × MistralTokenUsage))
    (baseDelay : ℚ) (jitter : Nat → ℚ) : Nat → Nat → RetryOutcome
  | _, 0 => { content := none, usage := {}, attempts := 0, sleeps := [] }
  | idx, remaining + 1 =>
    match attemptResult idx with
    | some (c, u) => { content := some c, usage := u, attempts := 1, sleeps := [] }
    | none =>
      if remaining = 0 then
        { content := none, usage := {}, attempts := 1, sleeps := [] }
      else
        let r := requestLoop attemptResult baseDelay jitter (idx + 1) remaining
        { content := r.content, usage := r.usage, attempts := r.attempts + 1,
          sleeps := backoffDelay baseDelay jitter idx :: r.sleeps }

/-- `MistralAIClient._make_request`: up to `max_retries + 1` attempts. -/
def makeRequest (maxRetries : Nat) (baseDelay : ℚ) (jitter : Nat → ℚ)
    (attemptResult : Nat → Option (String × MistralTokenUsage)) : RetryOutcome :=
  requestLoop attemptResult baseDelay jitter 0 (maxRetries + 1)

/-- Concrete token usage used by the C3 retry witness. -/
def retryWitnessUsage : MistralTokenUsage :=
  { prompt_tokens := 10, completion_tokens := 5, total_tokens := 15 }

/-- Concrete attempt oracle used by the C3 retry witness: the call fails
twice, then succeeds. -/
def retryWitnessOracle : Nat → Option (String × MistralTokenUsage) :=
  fun i => if i < 2 then none else some ("fixed content", retryWitnessUsage)

/-! ## Cost calculators (`ai_client.py` and `ai/mistral_client.py`)

Python float literals and arithmetic are modelled as exact rationals: both
sides of every claim compute the same arithmetic expression, so exactness is
preserved by the translation. -/

/-- A `(input, output)` per-1K-token rate pair. -/
abbrev RatePair := ℚ × ℚ

/-- `CostCalculator.MISTRAL_PRICING` of `ai_client.py`. -/
def aiMistralPricing : List (String × RatePair) :=
  [("mistral-tiny", (0.00025, 0.00025)),
   ("mistral-small", (0.002, 0.006)),
   ("mistral-medium", (0.0027, 0.0081)),
   ("mistral-large", (0.008, 0.024))]

/-- `CostCalculator.GEMINI_PRICING` of `ai_client.py`. -/
def aiGeminiPricing : List (String × RatePair) :=
  [("gemini-1.5-pro", (0.00125, 0.005)),
   ("gemini-1.5-flash", (0.000075, 0.0003)),
   ("gemini-2.0-flash", (0.000075, 0.0003))]

/-- Dictionary lookup in a rate table. -/
def lookupRate (table : List (String × RatePair)) (model : String) :
    Option RatePair :=
  (table.find? (fun e => e.1 = model)).map (fun e => e.2)

/-- `CostCalculator.calculate_cost` of `ai_client.py`: Mistral table first,
then Gemini table, else the `"mistral-small"` default rates. -/
def aiCalculateCost (model : String) (promptTokens completionTokens : Nat) : ℚ :=
  let pricing :=
    match lookupRate aiMistralPricing model with
    | some p => p
    | none =>
      match lookupRate aiGeminiPricing model with
      | some p => p
      | none => (lookupRate aiMistralPricing "mistral-small").getD (0, 0)
  (promptTokens : ℚ) / 1000 * pricing.1 + (completionTokens : ℚ) / 1000 * pricing.2

/-- `MistralCostCalculator.PRICING` of `ai/mistral_client.py`. -/
def mistralPricing : List (String × RatePair) :=
  [("mistral-tiny", (0.00025, 0.00025)),
   ("mistral-small-latest", (0.002, 0.006)),
   ("mistral-medium-latest", (0.0027, 0.0081)),
   ("mistral-large-latest", (0.008, 0.024)),
   ("codestral-latest", (0.001, 0.003))]

/-- `MistralCostCalculator.calculate_cost` of `ai/mistral_client.py`:
`PRICING.get(model, PRICING["mistral-small-latest"])`. -/
def mistralCalculateCost (model : String) (promptTokens completionTokens : Nat) : ℚ :=
  let pricing := (lookupRate mistralPricing model).getD
    ((lookupRate mistralPricing "mistral-small-latest").getD (0, 0))
  (promptTokens : ℚ) / 1000 * pricing.1 + (completionTokens : ℚ) / 1000 * pricing.2

/-! ## AI-response code extraction (`code_smell_processor.py`, `ai_client.py`)

`CodeSmellProcessor.extract_updated_file` tries the regex patterns
`r'```LANG(.*?)```'` (then the generic `r'```(.*?)```'`) with `re.DOTALL` and
`re.search` semantics: the leftmost feasible start position wins, and the
non-greedy group takes the shortest closing fence.  Strings are embedded as
`List Char`. -/

/-- Python `str.strip()` whitespace (the Unicode whitespace set). -/
def pySpace (c : Char) : Bool :=
  c.toNat ∈ [32, 9, 10, 13, 11, 12, 28, 29, 30, 31,
    133, 160, 5760, 8192, 8193, 8194, 8195, 8196, 8197, 8198, 8199, 8200,
    8201, 8202, 8232, 8233, 8239, 8287, 12288]

/-- Python `str.strip()`: drop leading and trailing whitespace. -/
def pyStrip (l : List Char) : List Char :=
  ((l.dropWhile pySpace).reverse.dropWhile pySpace).reverse

/-- ASCII lower-casing of one character (`str.lower()` restricted to the
ASCII range; the conversational lead-in markers compared against are all
ASCII). -/
def asciiLower (c : Char) : Char :=
  if 65 ≤ c.toNat ∧ c.toNat ≤ 90 then Char.ofNat (c.toNat + 32) else c

/-- Does `pat` match at the head of `s`? -/
def leadMatch : List Char → List Char → Bool
  | [], _ => true
  | _ :: _, [] => false
  | p :: ps, c :: cs => p = c && leadMatch ps cs

/-- Index of the first occurrence of `pat` in `s`. -/
def findSub (pat : List Char) : List Char → Option Nat
  | [] => if leadMatch pat [] then some 0 else none
  | c :: t =>
    if leadMatch pat (c :: t) then some 0
    else (findSub pat t).map (fun n => n + 1)

/-- The three-backtick fence marker. -/
def fenceMark : List Char := "```".toList

/-- Try pattern ` ```TAG(.*?)``` ` anchored at the head of `s`: the opener
must match here and a closing fence must occur in the remainder; the
non-greedy group ends at the first closing fence. -/
def fenceTryAt (tag : List Char) (s : List Char) : Option (List Char) :=
  let opener := fenceMark ++ tag
  if leadMatch opener s then
    let rest := s.drop opener.length
    (findSub fenceMark rest).map (fun j => rest.take j)
  else none

/-- `re.search` for ` ```TAG(.*?)``` ` with `re.DOTALL`: group 1 of the
leftmost match. -/
def fenceSearch (tag : List Char) : List Char → Option (List Char)
  | [] => fenceTryAt tag []
  | c :: t =>
    match fenceTryAt tag (c :: t) with
    | some g => some g
    | none => fenceSearch tag t

/-- The ordered pattern tags of `extract_updated_file`; the final empty tag
is the generic fallback ` ```(.*?)``` `. -/
def fenceTags : List (List Char) :=
  ["java", "python", "javascript", "typescript", "cpp", "c++", "csharp",
   "go", "rust", "php", "ruby", "scala", "kotlin", "swift", ""].map String.toList

/-- First pattern in order whose search hits, returning its stripped group. -/
def firstFenceHit : List (List Char) → List Char → Option (List Char)
  | [], _ => none
  | t :: ts, s =>
    match fenceSearch t s with
    | some g => some (pyStrip g)
    | none => firstFenceHit ts s

/-- Python `str.split('\n')`. -/
def splitNl : List Char → List (List Char)
  | [] => [[]]
  | c :: t =>
    if c = '\n' then [] :: splitNl t
    else
      match splitNl t with
      | [] => [[c]]
      | l :: ls => (c :: l) :: ls

/-- The conversational lead-in markers of the code-vs-prose heuristic. -/
def conversationLeads : List (List Char) :=
  ["here", "the", "i ", "this"].map String.toList

/-- `line.lower().startswith(('here', 'the', 'i ', 'this'))`. -/
def looksLikeLead (line : List Char) : Bool :=
  conversationLeads.any (fun p => leadMatch p (line.map asciiLower))

/-- `CodeSmellProcessor.extract_updated_file`. -/
def extractUpdatedFile (aiResponse : List Char) : Option (List Char) :=
  match firstFenceHit fenceTags aiResponse with
  | some g => some g
  | none =>
    let stripped := pyStrip aiResponse
    let lines := splitNl stripped
    if lines.length > 1 && !((lines.take 3).any looksLikeLead) then
      some stripped
    else
      none

/-- `AICodeFixer._extract_updated_file` of `ai_client.py`: only the
` ```java(.*?)``` ` pattern, no generic fallback, no heuristic. -/
def aiExtractUpdatedFile (aiResponse : List Char) : Option (List Char) :=
  (fenceSearch ("java".toList) aiResponse).map pyStrip

/-! ## Fix orchestrator (`main.py`, `SonarAgentApp`)

The per-run loop `_process_code_smells` with `_handle_single_fix`,
`_direct_commit_fix` and `create_working_branch`.  External collaborators are
oracles: the Git host file reader, the AI fixer, branch creation, the batch
committer (a record of its three duck-typed operations over an abstract
state), and the direct per-file update call.  The fingerprint store is the
`Db` table defined above. -/

/-- `TokenUsage` dataclass of `ai_client.py`. -/
structure TokenUsage where
  prompt_tokens : Nat := 0
  completion_tokens : Nat := 0
  total_tokens : Nat := 0
  cost_usd : ℚ := 0
deriving DecidableEq, Repr

/-- `FixResult` dataclass of `main.py`. -/
structure FixResult where
  smell : CodeSmell
  success : Bool
  usage : TokenUsage
  error : Option String := none
deriving DecidableEq, Repr

/-- The duck-typed batch committer interface used by `main.py`
(`add_file`, `should_commit`, `commit_batch`); `commitBatch` returns the
result's `success` flag, which is all the orchestrator inspects. -/
structure Committer (σ : Type) where
  addFile : σ → String → String → σ
  shouldCommit : σ → Bool
  commitBatch : σ → String → Bool × σ

/-- Run environment: configuration plus the oracles for every external
collaborator reached from `_process_code_smells`. -/
structure Env (σ : Type) where
  dry_run : Bool
  /-- `config.get('gitlab_branch') or config.get('github_branch') or 'main'`. -/
  base_branch : String
  /-- The timestamped name `create_working_branch` generates. -/
  newBranchName : String
  /-- Whether the Git host accepts the branch creation call. -/
  createBranchOk : Bool
  /-- `rule_prompt_map` (keys `RSPEC-<n>` and `DEFAULT_PROMPT`). -/
  ruleMap : List (String × String)
  /-- `_get_file_content`: read at the configured base branch. -/
  getFileContent : String → Option String
  /-- `AICodeFixer.fix_code_smell`: (fixed content or none, usage). -/
  aiFix : CodeSmell → String → String → Option String × TokenUsage
  /-- The batch committer, if one was configured. -/
  committer : Option (Committer σ)
  /-- `update_file` success for the direct-commit path. -/
  updateFileOk : String → Bool
  /-- Whether the fingerprint store accepts writes (`sqlite3.Error` if not). -/
  storageOk : Bool
  /-- Clock value recorded in `fixed_at`. -/
  now : Nat

/-- Mutable orchestrator state across the loop.  `createCalls` instruments
how many times `create_working_branch` ran (it mutates nothing the code
reads). -/
structure OrchState (σ : Type) where
  working_branch : Option String
  db : Db
  cstate : σ
  createCalls : Nat
deriving Repr

/-- `SonarAgentApp.create_working_branch`: on host success, sets
`self.working_branch` to the generated name and returns `True`; on failure
leaves it unset and returns `False`. -/
def createWorkingBranch {σ : Type} (env : Env σ) (st : OrchState σ) :
    Bool × OrchState σ :=
  if env.createBranchOk then
    (true, { st with working_branch := some env.newBranchName,
                     createCalls := st.createCalls + 1 })
  else
    (false, { st with createCalls := st.createCalls + 1 })

/-- Substring containment, `":S" in rule`. -/
def containsSub (pat s : List Char) : Bool :=
  (findSub pat s).isSome

/-- Python `int(str)` restricted to ASCII: optional surrounding whitespace,
optional sign, then a non-empty digit run (`ValueError` otherwise, modelled
as `none`). -/
def pyParseInt (s : List Char) : Option Int :=
  let t := pyStrip s
  let (sign, digits) :=
    match t with
    | c :: rest => if c = '-' then ((-1 : Int), rest) else if c = '+' then (1, rest) else (1, t)
    | [] => (1, t)
  if digits ≠ [] ∧ digits.all (fun c => 48 ≤ c.toNat ∧ c.toNat ≤ 57) then
    some (sign * (digits.foldl (fun acc c => acc * 10 + (c.toNat - 48)) 0 : Nat))
  else
    none

/-- The `":S"` marker. -/
def ruleMarker : List Char := ":S".toList

/-- `rule.split(":S")[1]`: the segment after the first `":S"` up to the next
occurrence (assuming the marker occurs, as guarded in the code). -/
def ruleSegment (rule : List Char) : List Char :=
  match findSub ruleMarker rule with
  | none => []
  | some i =>
    let rest := (rule.drop (i + 2))
    match findSub ruleMarker rest with
    | none => rest
    | some j => rest.take j

/-- Dictionary `get` on the prompt map. -/
def promptLookup (ruleMap : List (String × String)) (key : String) :
    Option String :=
  (ruleMap.find? (fun e => e.1 = key)).map (fun e => e.2)

/-- The prompt-resolution step of `_process_code_smells`:
`none` models the `except` path (`int` raised; the finding is skipped with no
recorded result and *without* trying the default); `some none` means neither
a rule-specific nor a default template exists (also skipped, no recorded
result); `some (some p)` is the resolved template. -/
def resolvePromptTemplate (ruleMap : List (String × String)) (rule : String) :
    Option (Option String) :=
  let chars := rule.toList
  if containsSub ruleMarker chars then
    match pyParseInt (ruleSegment chars) with
    | none => none
    | some n =>
      match promptLookup ruleMap ("RSPEC-" ++ toString n) with
      | some p => some (some p)
      | none => some (promptLookup ruleMap "DEFAULT_PROMPT")
  else
    some (promptLookup ruleMap "DEFAULT_PROMPT")

/-- `SonarAgentApp._direct_commit_fix` (no batch committer configured). -/
def directCommitFix {σ : Type} (env : Env σ) (st : OrchState σ)
    (smell : CodeSmell) (usage : TokenUsage) : FixResult × OrchState σ :=
  match st.working_branch with
  | none =>
    let (ok, st1) := createWorkingBranch env st
    if ok then
      if env.updateFileOk smell.file_path then
        ({ smell := smell, success := true, usage := usage }, st1)
      else
        ({ smell := smell, success := false, usage := usage,
           error := some "Failed to commit" }, st1)
    else
      ({ smell := smell, success := false, usage := usage,
         error := some "Failed to create working branch" }, st1)
  | some _ =>
    if env.updateFileOk smell.file_path then
      ({ smell := smell, success := true, usage := usage }, st)
    else
      ({ smell := smell, success := false, usage := usage,
         error := some "Failed to commit" }, st)

/-- The commit stage of `_handle_single_fix`, reached once a working branch
exists: add to the batch committer and flush on threshold (flush failure is
reported, not escalated — the fix result is a success either way), or fall
back to the direct per-file commit when no committer is configured. -/
def commitStage {σ : Type} (env : Env σ) (st1 : OrchState σ)
    (smell : CodeSmell) (fixedContent : String) (usage : TokenUsage) :
    FixResult × OrchState σ :=
  match env.committer with
  | some com =>
    let wb := st1.working_branch.getD ""
    let st2 := { st1 with cstate := com.addFile st1.cstate smell.file_path fixedContent }
    if com.shouldCommit st2.cstate then
      let (_success, c3) := com.commitBatch st2.cstate wb
      ({ smell := smell, success := true, usage := usage },
       { st2 with cstate := c3 })
    else
      ({ smell := smell, success := true, usage := usage }, st2)
  | none => directCommitFix env st1 smell usage

/-- `SonarAgentApp._handle_single_fix`: dry-run short-circuit; lazy working
branch creation (once, on the first live fix); then the commit stage. -/
def handleSingleFix {σ : Type} (env : Env σ) (st : OrchState σ)
    (smell : CodeSmell) (fixedContent : String) (usage : TokenUsage) :
    FixResult × OrchState σ :=
  if env.dry_run then
    ({ smell := smell, success := true, usage := usage }, st)
  else
    match st.working_branch with
    | none =>
      let (ok, st1) := createWorkingBranch env st
      if ok then commitStage env st1 smell fixedContent usage
      else
        ({ smell := smell, success := false, usage := usage,
           error := some "Failed to create working branch" }, st1)
    | some _ => commitStage env st smell fixedContent usage

/-- One iteration of the `_process_code_smells` loop over an unfixed finding;
`branch0` is the `current_branch` captured before the loop.  Returns the
recorded `FixResult`, if any. -/
def processOneSmell {σ : Type} (env : Env σ) (branch0 : String)
    (st : OrchState σ) (smell : CodeSmell) :
    Option FixResult × OrchState σ :=
  match resolvePromptTemplate env.ruleMap smell.rule with
  | none => (none, st)
  | some none => (none, st)
  | some (some prompt) =>
    match env.getFileContent smell.file_path with
    | none =>
      (some { smell := smell, success := false, usage := {},
              error := some "Could not read file from repository" }, st)
    | some content =>
      if content = "" then
        -- Python truthiness: empty content fails the `if not file_content` guard
        (some { smell := smell, success := false, usage := {},
                error := some "Could not read file from repository" }, st)
      else
        let (fixedOpt, usage) := env.aiFix smell content prompt
        match fixedOpt with
        | none =>
          (some { smell := smell, success := false, usage := usage,
                  error := some "AI could not fix the issue" }, st)
        | some fixed =>
          if fixed = "" then
            (some { smell := smell, success := false, usage := usage,
                    error := some "AI could not fix the issue" }, st)
          else
            let (result, st1) := handleSingleFix env st smell fixed usage
            let st2 :=
              if result.success ∧ ¬env.dry_run then
                { st1 with db := (markIssueFixed env.storageOk st1.db smell branch0
                    none (some fixed) env.now).2 }
              else st1
            (some result, st2)

/-- The `_process_code_smells` loop over the filtered findings. -/
def processLoop {σ : Type} (env : Env σ) (branch0 : String) :
    OrchState σ → List CodeSmell → List FixResult × OrchState σ
  | st, [] => ([], st)
  | st, smell :: rest =>
    let (res, st1) := processOneSmell env branch0 st smell
    let (tail, st2) := processLoop env branch0 st1 rest
    (match res with
     | some r => r :: tail
     | none => tail, st2)

/-- `SonarAgentApp._process_code_smells`: capture `current_branch`, filter
already-fixed findings through the fingerprint store, then run the loop. -/
def processCodeSmells {σ : Type} (env : Env σ) (st : OrchState σ)
    (smells : List CodeSmell) : List FixResult × OrchState σ :=
  let branch0 := st.working_branch.getD env.base_branch
  let (unfixed, db1) := filterUnfixedIssues st.db smells branch0
  processLoop env branch0 { st with db := db1 } unfixed

/-- The GitHub batch committer packaged behind the duck-typed interface the
orchestrator uses. -/
def ghCommitter (batchSize : Nat) (updateFails : String → Bool) : Committer GHState :=
  { addFile := ghAddFile,
    shouldCommit := ghShouldCommit batchSize,
    commitBatch := fun st _branch =>
      let o := ghCommitBatch updateFails st
      (o.result.success, o.state) }

/-- A concrete finding for the orchestrator run scenarios. -/
def demoSmell (rule : String) : CodeSmell :=
  { key := "K1", file_path := "a.py", message := "msg", start_line := 1,
    end_line := 2, debt_minutes := 5, rule := rule, severity := "MAJOR" }

/-- A concrete live-mode run environment over the GitHub committer: file
reads and AI fixes succeed, branch creation succeeds, storage is healthy. -/
def demoEnv (ruleMap : List (String × String)) : Env GHState :=
  { dry_run := false, base_branch := "main",
    newBranchName := "sonar-agent-fixes-20240101_000000", createBranchOk := true,
    ruleMap := ruleMap,
    getFileContent := fun _ => some "original content",
    aiFix := fun _ _ _ => (some "fixed content", {}),
    committer := some (ghCommitter 10 (fun _ => false)),
    updateFileOk := fun _ => true, storageOk := true, now := 0 }

/-- The fresh orchestrator state at the start of a run. -/
def demoState : OrchState GHState :=
  { working_branch := none, db := [],
    cstate := { pending_files := [], commit_count := 0 }, createCalls := 0 }

/-! ## Theorems -/

/-- Claim C9: for all non-negative prompt and completion token counts, the
computed cost equals `(promptTokens/1000)*inputRate +
(completionTokens/1000)*outputRate` using the per-model rate table (Mistral
table first, then Gemini), an unknown model identifier uses the default
model's rates, and `"mistral-small"` with 1000 prompt and 500 completion
tokens yields `1000/1000*0.002 + 500/1000*0.006` (in both calculators). -/
theorem C9_cost_calculation :
    (∀ (model : String) (rin rout : ℚ) (p c : Nat),
      lookupRate aiMistralPricing model = some (rin, rout) →
      aiCalculateCost model p c = (p : ℚ) / 1000 * rin + (c : ℚ) / 1000 * rout) ∧
    (∀ (model : String) (rin rout : ℚ) (p c : Nat),
      lookupRate aiMistralPricing model = none →
      lookupRate aiGeminiPricing model = some (rin, rout) →
      aiCalculateCost model p c = (p : ℚ) / 1000 * rin + (c : ℚ) / 1000 * rout) ∧
    (∀ (model : String) (p c : Nat),
      lookupRate aiMistralPricing model = none →
      lookupRate aiGeminiPricing model = none →
      aiCalculateCost model p c = aiCalculateCost "mistral-small" p c) ∧
    aiCalculateCost "mistral-small" 1000 500 =
      (1000 : ℚ) / 1000 * 0.002 + (500 : ℚ) / 1000 * 0.006 ∧
    (∀ (model : String) (p c : Nat),
      lookupRate mistralPricing model = none →
      mistralCalculateCost model p c = mistralCalculateCost "mistral-small-latest" p c) ∧
    mistralCalculateCost "mistral-small" 1000 500 =
      (1000 : ℚ) / 1000 * 0.002 + (500 : ℚ) / 1000 * 0.006 := by
  refine ⟨?_, ?_, ?_, ?_, ?_, ?_⟩
  · intro model rin rout p c hm
    simp [aiCalculateCost, hm]
  · intro model rin rout p c hm hg
    simp [aiCalculateCost, hm, hg]
  · intro model p c hm hg
    have hsmall : lookupRate aiMistralPricing "mistral-small" =
        some ((0.002 : ℚ), (0.006 : ℚ)) := by simp [lookupRate, aiMistralPricing]
    simp [aiCalculateCost, hm, hg, hsmall]
  · have hsmall : lookupRate aiMistralPricing "mistral-small" =
        some ((0.002 : ℚ), (0.006 : ℚ)) := by simp [lookupRate, aiMistralPricing]
    simp [aiCalculateCost, hsmall]
  · intro model p c hm
    have hlat : lookupRate mistralPricing "mistral-small-latest" =
        some ((0.002 : ℚ), (0.006 : ℚ)) := by simp [lookupRate, mistralPricing]
    simp [mistralCalculateCost, hm, hlat]
  · have hnot : lookupRate mistralPricing "mistral-small" = none := by
      simp [lookupRate, mistralPricing]
    have hlat : lookupRate mistralPricing "mistral-small-latest" =
        some ((0.002 : ℚ), (0.006 : ℚ)) := by simp [lookupRate, mistralPricing]
    simp [mistralCalculateCost, hnot, hlat]

/-- Witness for C9: the unknown-model clause applied at the concrete model
identifier `"some-unknown-model"`. -/
theorem C9_cost_calculation_witness :
    aiCalculateCost "some-unknown-model" 1000 500 =
      aiCalculateCost "mistral-small" 1000 500 :=
  C9_cost_calculation.2.2.1 "some-unknown-model" 1000 500 (by decide) (by decide)

/-- `add_file` with a path not yet pending appends to the dict. -/
theorem ghAddFile_fresh (st : GHState) (p c : String)
    (hp : ∀ e ∈ st.pending_files, e.1 ≠ p) :
    (ghAddFile st p c).pending_files = st.pending_files ++ [(p, c)] := by
  have hany : st.pending_files.any (fun e => e.1 = p) = false := by
    simp only [List.any_eq_false, decide_eq_true_eq]
    intro e he
    exact hp e he
  simp [ghAddFile, dictUpsert, hany]

/-- Adding files with pairwise-distinct fresh paths appends them all. -/
theorem ghAddAll_pending (files : List (String × String)) :
    ∀ st : GHState,
      (∀ x ∈ files, ∀ q ∈ st.pending_files, x.1 ≠ q.1) →
      (files.map Prod.fst).Nodup →
      (ghAddAll files st).pending_files = st.pending_files ++ files := by
  induction files with
  | nil =>
    intro st _ _
    simp [ghAddAll]
  | cons e rest ih =>
    intro st hfresh hnd
    rw [List.map_cons] at hnd
    obtain ⟨hnotin, hnd'⟩ := List.nodup_cons.mp hnd
    have hstep : (ghAddFile st e.1 e.2).pending_files = st.pending_files ++ [e] := by
      have h0 := ghAddFile_fresh st e.1 e.2 (fun q hq hEq =>
        hfresh e (List.mem_cons_self e rest) q hq hEq.symm)
      simpa using h0
    have hfresh2 : ∀ x ∈ rest, ∀ q ∈ (ghAddFile st e.1 e.2).pending_files, x.1 ≠ q.1 := by
      intro x hx q hq
      rw [hstep] at hq
      rcases List.mem_append.mp hq with hq1 | hq2
      · exact hfresh x (List.mem_cons_of_mem _ hx) q hq1
      · have hqe : q = e := List.mem_singleton.mp hq2
        subst hqe
        intro hEq
        exact hnotin (hEq ▸ List.mem_map_of_mem Prod.fst hx)
    have hrec := ih (ghAddFile st e.1 e.2) hfresh2 hnd'
    simp only [ghAddAll, List.foldl_cons] at hrec ⊢
    rw [hrec, hstep]
    simp

/-- Adding files to a GitLab committer appends them all (its pending
collection is a plain list). -/
theorem glAddAll_pending (files : List (String × String)) (st : GLState) :
    (glAddAll files st).pending_files =
      st.pending_files ++ files.map (fun e =>
        { file_path := e.1, content := e.2, action := "update" : GitLabFile }) := by
  induction files generalizing st with
  | nil => simp [glAddAll]
  | cons e rest ih =>
    simp only [glAddAll, List.foldl_cons] at *
    rw [ih]
    simp [glAddFile]

/-- Neither `add_file` changes the commit counter. -/
theorem ghAddAll_count (files : List (String × String)) (st : GHState) :
    (ghAddAll files st).commit_count = st.commit_count := by
  induction files generalizing st with
  | nil => rfl
  | cons e rest ih =>
    simp only [ghAddAll, List.foldl_cons] at *
    rw [ih]
    rfl

/-- Neither `add_file` changes the commit counter (GitLab). -/
theorem glAddAll_count (files : List (String × String)) (st : GLState) :
    (glAddAll files st).commit_count = st.commit_count := by
  induction files generalizing st with
  | nil => rfl
  | cons e rest ih =>
    simp only [glAddAll, List.foldl_cons] at *
    rw [ih]
    rfl

/-- Counterexample for claim C6 as stated: flushing an *empty* pending batch
through the GitLab batch committer returns `success = False` (with error
`"No files to commit"`), not a no-op success; the state is unchanged. -/
theorem C6_counterexample :
    (glCommitBatch true "id1" { pending_files := [], commit_count := 0 }).1.success
        = false ∧
    (glCommitBatch true "id1" { pending_files := [], commit_count := 0 }).2 =
      { pending_files := [], commit_count := 0 } := by
  constructor <;> rfl

/-- Claim C6 (amended): flushing an empty pending batch is a no-op success in
the GitHub committer but a no-op *failure* result in the GitLab committer;
and adding N files with flush threshold N then flushing on full success
leaves pending count 0 and increments the commit counter by exactly 1, in
both committers. -/
theorem C6_flush_round_trip :
    (∀ (f : String → Bool) (st : GHState), st.pending_files = [] →
      ghCommitBatch f st =
        { result := { success := true, message := some "No files to commit" },
          successful_commits := [], failed_commits := [], state := st }) ∧
    (∀ (ok : Bool) (cid : String) (st : GLState), st.pending_files = [] →
      glCommitBatch ok cid st =
        ({ success := false, error := some "No files to commit" }, st)) ∧
    (∀ (files : List (String × String)) (cnt : Nat) (f : String → Bool),
      files ≠ [] → (files.map Prod.fst).Nodup →
      (∀ e ∈ files, f e.1 = false) →
      ghShouldCommit files.length
        (ghAddAll files { pending_files := [], commit_count := cnt }) = true ∧
      (ghCommitBatch f (ghAddAll files { pending_files := [], commit_count := cnt
        })).result.success = true ∧
      (ghCommitBatch f (ghAddAll files { pending_files := [], commit_count := cnt
        })).state.pending_files = [] ∧
      (ghCommitBatch f (ghAddAll files { pending_files := [], commit_count := cnt
        })).state.commit_count = cnt + 1) ∧
    (∀ (files : List (String × String)) (cnt : Nat) (cid : String),
      files ≠ [] →
      glShouldCommit files.length
        (glAddAll files { pending_files := [], commit_count := cnt }) = true ∧
      (glCommitBatch true cid (glAddAll files { pending_files := [], commit_count := cnt
        })).1.success = true ∧
      (glCommitBatch true cid (glAddAll files { pending_files := [], commit_count := cnt
        })).2.pending_files = [] ∧
      (glCommitBatch true cid (glAddAll files { pending_files := [], commit_count := cnt
        })).2.commit_count = cnt + 1) := by
  refine ⟨?_, ?_, ?_, ?_⟩
  · intro f st hemp
    simp [ghCommitBatch, hemp]
  · intro ok cid st hemp
    simp [glCommitBatch, hemp]
  · intro files cnt f hne hnd hok
    have hpend : (ghAddAll files { pending_files := [], commit_count := cnt }).pending_files
        = files := by
      simpa using ghAddAll_pending files { pending_files := [], commit_count := cnt }
        (by simp) hnd
    have hcnt : (ghAddAll files { pending_files := [], commit_count := cnt }).commit_count
        = cnt := ghAddAll_count _ _
    have hfail : files.filter (fun e => f e.1) = [] := by
      rw [List.filter_eq_nil_iff]
      intro e he
      simp [hok e he]
    have hsucc : files.filter (fun e => !f e.1) = files := by
      rw [List.filter_eq_self]
      intro e he
      simp [hok e he]
    refine ⟨?_, ?_⟩
    · simp [ghShouldCommit, hpend]
    · simp [ghCommitBatch, hpend, hcnt, hne, hfail, hsucc]
  · intro files cnt cid hne
    have hpend : (glAddAll files { pending_files := [], commit_count := cnt }).pending_files
        = files.map (fun e =>
          { file_path := e.1, content := e.2, action := "update" : GitLabFile }) := by
      simpa using glAddAll_pending files { pending_files := [], commit_count := cnt }
    have hcnt : (glAddAll files { pending_files := [], commit_count := cnt }).commit_count
        = cnt := glAddAll_count _ _
    have hne' : files.map (fun e =>
        { file_path := e.1, content := e.2, action := "update" : GitLabFile }) ≠ [] := by
      simpa using hne
    refine ⟨?_, ?_, ?_, ?_⟩ <;>
      simp [glShouldCommit, glCommitBatch, hpend, hcnt, hne']

/-- Witness for C6 (amended): one file added with threshold 1, host succeeds:
flush succeeds, pending is cleared, and the counter goes from 0 to 1. -/
theorem C6_flush_round_trip_witness :
    ghShouldCommit 1 (ghAddAll [("a.py", "x")] { pending_files := [], commit_count := 0 }) = true ∧
    (ghCommitBatch (fun _ => false)
      (ghAddAll [("a.py", "x")] { pending_files := [], commit_count := 0 })).result.success = true ∧
    (ghCommitBatch (fun _ => false)
      (ghAddAll [("a.py", "x")] { pending_files := [], commit_count := 0 })).state.pending_files = [] ∧
    (ghCommitBatch (fun _ => false)
      (ghAddAll [("a.py", "x")] { pending_files := [], commit_count := 0 })).state.commit_count = 0 + 1 :=
  C6_flush_round_trip.2.2.1 [("a.py", "x")] 0 (fun _ => false)
    (by decide) (by decide) (by decide)

/-- Counterexample for claim C2 as stated: in the GitHub (per-file
sequential) committer, a flush in which *every* file fails still clears the
pending entries and bumps the counter — they are not preserved for a future
retry. -/
theorem C2_counterexample :
    (ghCommitBatch (fun _ => true)
      { pending_files := [("a.py", "x")], commit_count := 0 }).result.success = false ∧
    (ghCommitBatch (fun _ => true)
      { pending_files := [("a.py", "x")], commit_count := 0 }).state.pending_files = [] ∧
    (ghCommitBatch (fun _ => true)
      { pending_files := [("a.py", "x")], commit_count := 0 }).state.commit_count = 1 := by
  refine ⟨?_, ?_, ?_⟩ <;> decide

/-- Claim C2 (amended): in per-file sequential commit mode, a flush of a
non-empty batch attempts every file, reports the partition of succeeded
vs. failed paths, and returns `success = (succeededCount > 0)`; the pending
entries are cleared and the commit counter increments *regardless of the
outcome* — also on total failure (pending is not preserved for retry). -/
theorem C2_partial_failure (f : String → Bool) (st : GHState)
    (hne : st.pending_files ≠ []) :
    ((ghCommitBatch f st).successful_commits ++ (ghCommitBatch f st).failed_commits).Perm
        (st.pending_files.map (fun e => e.1)) ∧
    ((ghCommitBatch f st).result.success = true ↔
      0 < (ghCommitBatch f st).successful_commits.length) ∧
    (∀ p ∈ (ghCommitBatch f st).successful_commits, f p = false) ∧
    (∀ p ∈ (ghCommitBatch f st).failed_commits, f p = true) ∧
    (ghCommitBatch f st).state.pending_files = [] ∧
    (ghCommitBatch f st).state.commit_count = st.commit_count + 1 := by
  have hperm :
      ((st.pending_files.filter (fun e => !f e.1)).map (fun e => e.1) ++
        (st.pending_files.filter (fun e => f e.1)).map (fun e => e.1)).Perm
        (st.pending_files.map (fun e => e.1)) := by
    rw [← List.map_append]
    refine List.Perm.map _ ?_
    have h0 := List.filter_append_perm (fun e => !f e.1) st.pending_files
    simpa using h0
  have hmem_succ :
      ∀ p ∈ (st.pending_files.filter (fun e => !f e.1)).map (fun e => e.1),
        f p = false := by
    intro p hp
    rcases List.mem_map.mp hp with ⟨e, he, hep⟩
    rcases List.mem_filter.mp he with ⟨_, hfe⟩
    rw [← hep]
    simpa using hfe
  have hmem_fail :
      ∀ p ∈ (st.pending_files.filter (fun e => f e.1)).map (fun e => e.1),
        f p = true := by
    intro p hp
    rcases List.mem_map.mp hp with ⟨e, he, hep⟩
    rcases List.mem_filter.mp he with ⟨_, hfe⟩
    rw [← hep]
    exact hfe
  by_cases hfail :
      (st.pending_files.filter (fun e => f e.1)).map (fun e => e.1) = []
  · have hlen : ((st.pending_files.filter (fun e => !f e.1)).map (fun e => e.1)).length
        = st.pending_files.length := by
      have h1 := hperm.length_eq
      simpa [hfail] using h1
    refine ⟨?_, ?_, ?_, ?_, ?_, ?_⟩
    · have h1 := hperm
      rw [hfail, List.append_nil] at h1
      simpa [ghCommitBatch, hne, hfail] using h1
    · simp only [ghCommitBatch, hne, hfail]
      simp [hlen, List.length_pos.mpr hne]
    · simpa [ghCommitBatch, hne, hfail] using hmem_succ
    · simp [ghCommitBatch, hne, hfail]
    · simp [ghCommitBatch, hne, hfail]
    · simp [ghCommitBatch, hne, hfail]
  · refine ⟨?_, ?_, ?_, ?_, ?_, ?_⟩
    · simpa [ghCommitBatch, hne, hfail] using hperm
    · simp [ghCommitBatch, hne, hfail]
    · simpa [ghCommitBatch, hne, hfail] using hmem_succ
    · simpa [ghCommitBatch, hne, hfail] using hmem_fail
    · simp [ghCommitBatch, hne, hfail]
    · simp [ghCommitBatch, hne, hfail]

/-- Witness for C2 (amended), the 5-file scenario of the spec: a host that
fails on 2 of 5 files yields `success = true`, 3 succeeded paths, 2 failed
paths, and cleared pending entries. -/
theorem C2_partial_failure_witness :
    let f : String → Bool := fun p => p = "b.py" ∨ p = "d.py"
    let st : GHState :=
      { pending_files := [("a.py", "1"), ("b.py", "2"), ("c.py", "3"),
          ("d.py", "4"), ("e.py", "5")], commit_count := 7 }
    ((ghCommitBatch f st).result.success = true ↔
      0 < (ghCommitBatch f st).successful_commits.length) ∧
    (ghCommitBatch f st).state.pending_files = [] ∧
    (ghCommitBatch f st).state.commit_count = 8 ∧
    (ghCommitBatch f st).result.success = true ∧
    (ghCommitBatch f st).successful_commits.length = 3 ∧
    (ghCommitBatch f st).failed_commits.length = 2 := by
  have h := C2_partial_failure
    (fun p => p = "b.py" ∨ p = "d.py")
    { pending_files := [("a.py", "1"), ("b.py", "2"), ("c.py", "3"),
        ("d.py", "4"), ("e.py", "5")], commit_count := 7 }
    (by decide)
  exact ⟨h.2.1, h.2.2.2.2.1, h.2.2.2.2.2, by decide, by decide, by decide⟩

/-- Attempt count of the retry loop is bounded by the allowed remaining
attempts. -/
theorem requestLoop_attempts_le
    (oracle : Nat → Option (String × MistralTokenUsage)) (baseDelay : ℚ)
    (jitter : Nat → ℚ) :
    ∀ (remaining idx : Nat),
      (requestLoop oracle baseDelay jitter idx remaining).attempts ≤ remaining := by
  intro remaining
  induction remaining with
  | zero =>
    intro idx
    simp [requestLoop]
  | succ r ih =>
    intro idx
    simp only [requestLoop]
    cases oracle idx with
    | some v => simp
    | none =>
      by_cases hr : r = 0
      · simp [hr]
      · simp only [hr, if_false]
        have := ih (idx + 1)
        simpa using Nat.succ_le_succ this

/-- One-step unfolding of the retry loop with attempts remaining. -/
theorem requestLoop_succ
    (oracle : Nat → Option (String × MistralTokenUsage)) (baseDelay : ℚ)
    (jitter : Nat → ℚ) (idx n : Nat) :
    requestLoop oracle baseDelay jitter idx (n + 1) =
      match oracle idx with
      | some (c, u) => { content := some c, usage := u, attempts := 1, sleeps := [] }
      | none =>
        if n = 0 then
          { content := none, usage := {}, attempts := 1, sleeps := [] }
        else
          let r := requestLoop oracle baseDelay jitter (idx + 1) n
          { content := r.content, usage := r.usage, attempts := r.attempts + 1,
            sleeps := backoffDelay baseDelay jitter idx :: r.sleeps } := rfl

/-- Peeling the first delay off a shifted delay range. -/
theorem delayRange_succ (baseDelay : ℚ) (jitter : Nat → ℚ) (idx k : Nat) :
    (List.range (k + 1)).map (fun j => backoffDelay baseDelay jitter (idx + j)) =
      backoffDelay baseDelay jitter idx ::
        (List.range k).map (fun j => backoffDelay baseDelay jitter (idx + 1 + j)) := by
  rw [List.range_succ_eq_map]
  simp only [List.map_cons, List.map_map, Function.comp]
  refine congrArg₂ _ (by simp) ?_
  refine List.map_congr_left ?_
  intro j _
  show backoffDelay baseDelay jitter (idx + (j + 1)) = backoffDelay baseDelay jitter (idx + 1 + j)
  congr 1
  omega

/-- If the first `k` attempts from `idx` fail and attempt `idx + k` succeeds,
the loop returns that content and usage after `k + 1` attempts, sleeping the
backoff delay of each failed attempt. -/
theorem requestLoop_first_success
    (oracle : Nat → Option (String × MistralTokenUsage)) (baseDelay : ℚ)
    (jitter : Nat → ℚ) (c : String) (u : MistralTokenUsage) :
    ∀ (k remaining idx : Nat), k < remaining →
      (∀ j, j < k → oracle (idx + j) = none) →
      oracle (idx + k) = some (c, u) →
      requestLoop oracle baseDelay jitter idx remaining =
        { content := some c, usage := u, attempts := k + 1,
          sleeps := (List.range k).map (fun j => backoffDelay baseDelay jitter (idx + j)) } := by
  intro k
  induction k with
  | zero =>
    intro remaining idx hlt _ hsucc
    obtain ⟨r, rfl⟩ := Nat.exists_eq_add_of_lt hlt
    rw [show 0 + r + 1 = r + 1 from by omega, requestLoop_succ]
    rw [show idx + 0 = idx from rfl] at hsucc
    simp [hsucc]
  | succ k ih =>
    intro remaining idx hlt hfails hsucc
    obtain ⟨r, rfl⟩ := Nat.exists_eq_add_of_lt hlt
    have hfail0 : oracle idx = none := by
      have h0 := hfails 0 (Nat.succ_pos k)
      simpa using h0
    have hrec := ih (k + r + 1) (idx + 1) (by omega)
      (fun j hj => by
        have h1 := hfails (j + 1) (Nat.succ_lt_succ hj)
        have h2 : idx + (j + 1) = idx + 1 + j := by omega
        rw [h2] at h1
        exact h1)
      (by
        have h2 : idx + 1 + k = idx + (k + 1) := by omega
        rw [h2]
        exact hsucc)
    rw [show k + 1 + r + 1 = (k + r + 1) + 1 from by omega, requestLoop_succ, hfail0]
    have hnz : ¬ (k + r + 1 = 0) := by omega
    simp only [hnz, if_false, hrec]
    simp [delayRange_succ]
/-- If every allowed attempt fails, the loop returns no content and zero
usage after exactly `remaining` attempts, sleeping after each attempt except
the last. -/
theorem requestLoop_all_fail
    (oracle : Nat → Option (String × MistralTokenUsage)) (baseDelay : ℚ)
    (jitter : Nat → ℚ) :
    ∀ (remaining idx : Nat), 0 < remaining →
      (∀ j, j < remaining → oracle (idx + j) = none) →
      requestLoop oracle baseDelay jitter idx remaining =
        { content := none, usage := {}, attempts := remaining,
          sleeps := (List.range (remaining - 1)).map
            (fun j => backoffDelay baseDelay jitter (idx + j)) } := by
  intro remaining
  induction remaining with
  | zero =>
    intro idx h
    exact absurd h (by simp)
  | succ r ih =>
    intro idx _ hfails
    have hfail0 : oracle idx = none := by
      have h0 := hfails 0 (Nat.succ_pos r)
      simpa using h0
    rw [requestLoop_succ, hfail0]
    by_cases hz : r = 0
    · simp [hz]
    · have hrec := ih (idx + 1) (Nat.pos_of_ne_zero hz) (fun j hj => by
        have h1 := hfails (j + 1) (Nat.succ_lt_succ hj)
        have h2 : idx + (j + 1) = idx + 1 + j := by omega
        rw [h2] at h1
        exact h1)
      simp only [hz, if_false, hrec]
      obtain ⟨r1, rfl⟩ := Nat.exists_eq_succ_of_ne_zero hz
      simp [delayRange_succ]

/-- Claim C3: the completion client attempts the underlying call at most
`maxRetries + 1` times; when the first `k` attempts fail and attempt `k`
succeeds (`k ≤ maxRetries`), it returns the successful content after exactly
`k + 1` attempts, having slept `baseDelay * 2^i + jitter i` after each failed
attempt `i < k`; and when every attempt fails it returns absent content with
zero token usage (after `maxRetries + 1` attempts, sleeping after every
attempt but the last) instead of raising. -/
theorem C3_retry_backoff :
    (∀ (maxRetries : Nat) (baseDelay : ℚ) (jitter : Nat → ℚ)
       (oracle : Nat → Option (String × MistralTokenUsage)),
      (makeRequest maxRetries baseDelay jitter oracle).attempts ≤ maxRetries + 1) ∧
    (∀ (maxRetries : Nat) (baseDelay : ℚ) (jitter : Nat → ℚ)
       (oracle : Nat → Option (String × MistralTokenUsage))
       (k : Nat) (c : String) (u : MistralTokenUsage),
      k ≤ maxRetries →
      (∀ j, j < k → oracle j = none) →
      oracle k = some (c, u) →
      makeRequest maxRetries baseDelay jitter oracle =
        { content := some c, usage := u, attempts := k + 1,
          sleeps := (List.range k).map (backoffDelay baseDelay jitter) }) ∧
    (∀ (maxRetries : Nat) (baseDelay : ℚ) (jitter : Nat → ℚ)
       (oracle : Nat → Option (String × MistralTokenUsage)),
      (∀ j, j ≤ maxRetries → oracle j = none) →
      makeRequest maxRetries baseDelay jitter oracle =
        { content := none, usage := {}, attempts := maxRetries + 1,
          sleeps := (List.range maxRetries).map (backoffDelay baseDelay jitter) }) := by
  refine ⟨?_, ?_, ?_⟩
  · intro maxRetries baseDelay jitter oracle
    exact requestLoop_attempts_le oracle baseDelay jitter (maxRetries + 1) 0
  · intro maxRetries baseDelay jitter oracle k c u hk hfails hsucc
    have h := requestLoop_first_success oracle baseDelay jitter c u k (maxRetries + 1) 0
      (Nat.lt_succ_of_le hk)
      (fun j hj => by simpa using hfails j hj)
      (by simpa using hsucc)
    simpa [makeRequest] using h
  · intro maxRetries baseDelay jitter oracle hfails
    have h := requestLoop_all_fail oracle baseDelay jitter (maxRetries + 1) 0
      (Nat.succ_pos maxRetries)
      (fun j hj => by simpa using hfails j (Nat.lt_succ_iff.mp hj))
    simpa [makeRequest] using h

/-- Witness for C3, the retry scenario of the spec: the underlying call fails
twice then succeeds, with `maxRetries = 3`; `complete` returns the successful
content after exactly 3 attempts (two backoff sleeps). -/
theorem C3_retry_backoff_witness :
    makeRequest 3 1 (fun _ => 1/2) retryWitnessOracle =
      { content := some "fixed content", usage := retryWitnessUsage, attempts := 3,
        sleeps := (List.range 2).map (backoffDelay 1 (fun _ => 1/2)) } :=
  C3_retry_backoff.2.1 3 1 (fun _ => 1/2) retryWitnessOracle
    2 "fixed content" retryWitnessUsage
    (by decide) (by decide) rfl
/-- `is_issue_fixed` without content never writes: it returns whether a
record exists and leaves the table unchanged. -/
theorem isIssueFixed_noContent (db : Db) (smell : CodeSmell) (branch : String) :
    isIssueFixed db smell branch none =
      ((lookupFixed db smell.key branch).isSome, db) := by
  unfold isIssueFixed
  cases lookupFixed db smell.key branch <;> rfl

/-- After `_remove_fixed_issue`, no record for the pair remains. -/
theorem lookupFixed_remove (db : Db) (k b : String) :
    lookupFixed (removeFixedIssue db k b) k b = none := by
  unfold lookupFixed removeFixedIssue
  rw [List.find?_eq_none]
  intro r hr
  have := (List.mem_filter.mp hr).2
  simp only [Bool.not_eq_true'] at this
  simp [this]

/-- `_remove_fixed_issue` leaves no row matching the removed pair. -/
theorem filter_remove_self (db : Db) (k b : String) :
    (removeFixedIssue db k b).filter (rowMatches k b) = [] := by
  unfold removeFixedIssue
  rw [List.filter_eq_nil_iff]
  intro r hr
  have := (List.mem_filter.mp hr).2
  simp only [Bool.not_eq_true'] at this
  simp [this]

/-- `_remove_fixed_issue` cannot increase the number of rows matching any
pair. -/
theorem filter_remove_le (db : Db) (k b k2 b2 : String) :
    ((removeFixedIssue db k b).filter (rowMatches k2 b2)).length ≤
      (db.filter (rowMatches k2 b2)).length :=
  ((List.filter_sublist db).filter (rowMatches k2 b2)).length_le

/-- The freshly inserted row matches its own pair. -/
theorem rowMatches_mkFixedRow (smell : CodeSmell) (branch : String)
    (cid : Option String) (content : Option String) (now : Nat) :
    rowMatches smell.key branch (mkFixedRow smell branch cid content now) = true := by
  simp [rowMatches, mkFixedRow]

/-- After a successful `mark_issue_fixed`, the rows matching the pair are
exactly the one just inserted. -/
theorem mark_filter_self (db : Db) (smell : CodeSmell) (branch : String)
    (cid : Option String) (content : Option String) (now : Nat) :
    ((markIssueFixed true db smell branch cid content now).2.filter
      (rowMatches smell.key branch)) = [mkFixedRow smell branch cid content now] := by
  unfold markIssueFixed
  simp only [Bool.not_true, Bool.false_eq_true, if_false, List.filter_append]
  rw [filter_remove_self]
  simp [rowMatches_mkFixedRow]

/-- The filtering loop threads the table through `is_issue_fixed` calls with
no content, which never write: the table comes back unchanged and the result
is the input filtered to findings with no stored record. -/
theorem filterUnfixedIssues_spec (db : Db) (branch : String) :
    ∀ l : List CodeSmell,
      filterUnfixedIssues db l branch =
        (l.filter (fun s => (lookupFixed db s.key branch).isNone), db) := by
  intro l
  induction l with
  | nil => rfl
  | cons s rest ih =>
    cases hl : lookupFixed db s.key branch with
    | none =>
      simp [filterUnfixedIssues, isIssueFixed_noContent, hl, ih, List.filter_cons]
    | some r =>
      simp [filterUnfixedIssues, isIssueFixed_noContent, hl, ih, List.filter_cons]

/-- Claim C10: `filter_unfixed_issues` never mutates the fingerprint store
(its `is_issue_fixed` calls pass no content, which only reads), and its
result is exactly the findings, in input order, with no stored record for the
branch — a sublist of the input. -/
theorem C10_filter_frame (db : Db) (branch : String) (smells : List CodeSmell) :
    filterUnfixedIssues db smells branch =
      (smells.filter (fun s => (lookupFixed db s.key branch).isNone), db) ∧
    (filterUnfixedIssues db smells branch).1.Sublist smells := by
  refine ⟨filterUnfixedIssues_spec db branch smells, ?_⟩
  rw [filterUnfixedIssues_spec db branch smells]
  exact List.filter_sublist smells

/-- Claim C4: the store keeps at most one record per (issue key, branch)
pair across `mark_issue_fixed`; marking the same pair twice leaves exactly
one record, the one of the latest call; and a storage failure is reported as
`False` with the table unchanged, never raised. -/
theorem C4_mark_fixed :
    (∀ (ok : Bool) (db : Db) (smell : CodeSmell) (branch : String)
       (cid : Option String) (content : Option String) (now : Nat),
      atMostOnePerKey db →
      atMostOnePerKey (markIssueFixed ok db smell branch cid content now).2) ∧
    (∀ (db : Db) (smell : CodeSmell) (branch : String)
       (cid cid2 : Option String) (content content2 : Option String) (now now2 : Nat),
      ((markIssueFixed true (markIssueFixed true db smell branch cid content now).2
          smell branch cid2 content2 now2).2.filter (rowMatches smell.key branch)) =
        [mkFixedRow smell branch cid2 content2 now2]) ∧
    (∀ (db : Db) (smell : CodeSmell) (branch : String)
       (cid : Option String) (content : Option String) (now : Nat),
      markIssueFixed false db smell branch cid content now = (false, db)) := by
  refine ⟨?_, ?_, ?_⟩
  · intro ok db smell branch cid content now hinv
    cases ok with
    | false => simpa [markIssueFixed] using hinv
    | true =>
      intro k b
      by_cases hkb : k = smell.key ∧ b = branch
      · obtain ⟨hk, hb⟩ := hkb
        subst hk
        subst hb
        rw [mark_filter_self]
        simp
      · have hrow : rowMatches k b (mkFixedRow smell branch cid content now) = false := by
          simp only [rowMatches, mkFixedRow]
          by_cases h1 : smell.key = k
          · have h2 : ¬ branch = b := fun hb => hkb ⟨h1.symm, hb.symm⟩
            simp [h1, h2]
          · simp [h1]
        unfold markIssueFixed
        simp only [Bool.not_true, Bool.false_eq_true, if_false, List.filter_append]
        rw [List.filter_cons, hrow]
        simp only [Bool.false_eq_true, if_false, List.filter_nil, List.append_nil]
        exact le_trans (filter_remove_le db smell.key branch k b) (hinv k b)
  · intro db smell branch cid cid2 content content2 now now2
    exact mark_filter_self _ smell branch cid2 content2 now2
  · intro db smell branch cid content now
    rfl

/-- Witness for C4: the invariant clause applied to the empty table with a
concrete finding. -/
theorem C4_mark_fixed_witness :
    atMostOnePerKey (markIssueFixed true []
      { key := "K1", file_path := "a.py", message := "m", start_line := 1,
        end_line := 1, debt_minutes := 5, rule := "java:S100", severity := "MAJOR" }
      "main" none (some "body") 0).2 :=
  C4_mark_fixed.1 true []
    { key := "K1", file_path := "a.py", message := "m", start_line := 1,
      end_line := 1, debt_minutes := 5, rule := "java:S100", severity := "MAJOR" }
    "main" none (some "body") 0
    (by intro k b; simp)

/-- Claim C1: with a record stored for the pair whose content hash is `H`,
`is_issue_fixed` with content returns true exactly when the SHA-256 hash of
the content equals `H`; on mismatch it deletes the record and returns false,
and a second mismatched call returns the same result on the unchanged,
record-free table; with no content supplied it returns true and changes
nothing. -/
theorem C1_is_issue_fixed (db : Db) (smell : CodeSmell) (branch : String)
    (row : FixedRow) (H : String) (content : String)
    (hlook : lookupFixed db smell.key branch = some row)
    (hH : row.file_hash = H) :
    ((isIssueFixed db smell branch (some content)).1 = true ↔
      calculateFileHash content = H) ∧
    (calculateFileHash content = H →
      isIssueFixed db smell branch (some content) = (true, db)) ∧
    (calculateFileHash content ≠ H →
      isIssueFixed db smell branch (some content) =
        (false, removeFixedIssue db smell.key branch) ∧
      lookupFixed (removeFixedIssue db smell.key branch) smell.key branch = none ∧
      isIssueFixed (removeFixedIssue db smell.key branch) smell branch (some content) =
        (false, removeFixedIssue db smell.key branch)) ∧
    isIssueFixed db smell branch none = (true, db) := by
  subst hH
  refine ⟨?_, ?_, ?_, ?_⟩
  · by_cases hc : calculateFileHash content = row.file_hash
    · simp [isIssueFixed, hlook, hc]
    · simp [isIssueFixed, hlook, hc]
  · intro hc
    simp [isIssueFixed, hlook, hc]
  · intro hc
    refine ⟨by simp [isIssueFixed, hlook, hc], lookupFixed_remove db smell.key branch, ?_⟩
    simp [isIssueFixed, lookupFixed_remove db smell.key branch]
  · simp [isIssueFixed, hlook]

/-- Witness for C1: a table holding one record for `("K1", "main")` whose
stored hash is the hash of `"body"`, queried with that same content. -/
theorem C1_is_issue_fixed_witness :
    (isIssueFixed
        [{ issue_key := "K1", file_path := "a.py", rule := "java:S100",
           message := "m", branch := "main", commit_id := none, fixed_at := 0,
           file_hash := calculateFileHash "body" }]
        { key := "K1", file_path := "a.py", message := "m", start_line := 1,
          end_line := 1, debt_minutes := 5, rule := "java:S100", severity := "MAJOR" }
        "main" (some "body")).1 = true ↔
      calculateFileHash "body" = calculateFileHash "body" :=
  (C1_is_issue_fixed
    [{ issue_key := "K1", file_path := "a.py", rule := "java:S100",
       message := "m", branch := "main", commit_id := none, fixed_at := 0,
       file_hash := calculateFileHash "body" }]
    { key := "K1", file_path := "a.py", message := "m", start_line := 1,
      end_line := 1, debt_minutes := 5, rule := "java:S100", severity := "MAJOR" }
    "main"
    { issue_key := "K1", file_path := "a.py", rule := "java:S100",
      message := "m", branch := "main", commit_id := none, fixed_at := 0,
      file_hash := calculateFileHash "body" }
    (calculateFileHash "body") "body" rfl rfl).1

/-- A match of a longer pattern is a match of its first part. -/
theorem leadMatch_append_left (p q : List Char) :
    ∀ s : List Char, leadMatch (p ++ q) s = true → leadMatch p s = true := by
  induction p with
  | nil =>
    intro s _
    rfl
  | cons a p2 ih =>
    intro s h
    cases s with
    | nil => simpa [leadMatch] using h
    | cons c t =>
      simp only [List.cons_append, leadMatch, Bool.and_eq_true] at h ⊢
      exact ⟨h.1, ih t h.2⟩

/-- A non-empty pattern never matches at the end of the input. -/
theorem leadMatch_nil (a : Char) (p : List Char) :
    leadMatch (a :: p) [] = false := rfl

/-- An occurrence in a suffix is an occurrence in the whole list. -/
theorem findSub_isSome_append (pat u : List Char) (h : (findSub pat u).isSome) :
    ∀ w : List Char, (findSub pat (w ++ u)).isSome := by
  intro w
  induction w with
  | nil => simpa using h
  | cons c w2 ih =>
    simp only [List.cons_append, findSub]
    cases hl : leadMatch pat (c :: (w2 ++ u)) with
    | true => simp
    | false =>
      simpa using ih

/-- One-step unfolding of the fence search. -/
theorem fenceSearch_cons (tag : List Char) (c : Char) (t : List Char) :
    fenceSearch tag (c :: t) =
      match fenceTryAt tag (c :: t) with
      | some g => some g
      | none => fenceSearch tag t := rfl

/-- If some tagged fence pattern matches at this position, the generic
pattern matches here too. -/
theorem fenceTryAt_mono (tag s : List Char) (h : (fenceTryAt tag s).isSome) :
    (fenceTryAt [] s).isSome := by
  unfold fenceTryAt at h ⊢
  by_cases hl : leadMatch (fenceMark ++ tag) s = true
  · have hl0 : leadMatch (fenceMark ++ []) s = true := by
      rw [List.append_nil]
      exact leadMatch_append_left fenceMark tag s hl
    simp only [hl, if_true, hl0] at h ⊢
    have hends : (findSub fenceMark (s.drop ((fenceMark ++ tag).length))).isSome := by
      simpa using h
    have hdec : s.drop fenceMark.length =
        (s.drop fenceMark.length).take tag.length ++
          s.drop ((fenceMark ++ tag).length) := by
      conv_lhs => rw [← List.take_append_drop tag.length (s.drop fenceMark.length)]
      congr 1
      rw [List.drop_drop]
      congr 1
      simp only [List.length_append]
      try omega
    simp only [List.append_nil]
    rw [hdec]
    have hfin := findSub_isSome_append fenceMark _ hends
      (List.take tag.length (List.drop fenceMark.length s))
    cases hcase : findSub fenceMark (List.take tag.length (List.drop fenceMark.length s) ++
        List.drop (fenceMark ++ tag).length s) with
    | none =>
      rw [hcase] at hfin
      simp at hfin
    | some j => simp [hcase]
  · simp only [hl, if_false] at h
    simp at h
/-- If some tagged fence pattern matches anywhere, the generic pattern
matches somewhere. -/
theorem fenceSearch_mono (tag : List Char) :
    ∀ s : List Char, (fenceSearch tag s).isSome → (fenceSearch [] s).isSome := by
  intro s
  induction s with
  | nil =>
    intro h
    exfalso
    have hm : fenceMark ++ tag ≠ [] := by
      intro hc
      have : fenceMark = [] := List.append_eq_nil.mp hc |>.1
      simp [fenceMark] at this
    have : fenceSearch tag [] = none := by
      show fenceTryAt tag [] = none
      unfold fenceTryAt
      rcases List.exists_cons_of_ne_nil hm with ⟨a, p, hp⟩
      rw [hp]
      simp [leadMatch]
    rw [this] at h
    simp at h
  | cons c t ih =>
    intro h
    rw [fenceSearch_cons] at h ⊢
    cases htry : fenceTryAt tag (c :: t) with
    | some g =>
      have h2 : (fenceTryAt [] (c :: t)).isSome :=
        fenceTryAt_mono tag (c :: t) (by simp [htry])
      rcases Option.isSome_iff_exists.mp h2 with ⟨g2, hg2⟩
      simp [hg2]
    | none =>
      rw [htry] at h
      have h3 := ih h
      cases h4 : fenceTryAt [] (c :: t) with
      | some g2 => simp
      | none => simpa using h3

/-- If every pattern search fails, the ordered scan over the pattern list
fails. -/
theorem firstFenceHit_none (s : List Char) :
    ∀ l : List (List Char), (∀ t ∈ l, fenceSearch t s = none) →
      firstFenceHit l s = none := by
  intro l
  induction l with
  | nil =>
    intro _
    rfl
  | cons t ts ih =>
    intro h
    have ht := h t (List.mem_cons_self t ts)
    simp only [firstFenceHit, ht]
    exact ih (fun t2 ht2 => h t2 (List.mem_cons_of_mem t ht2))

/-- Counterexample for claim C5 as stated: a `javascript`-tagged fence is
matched by the earlier `java` pattern, so the extraction is not the inner
text with the language tag ignored — the residue `script` is kept. -/
theorem C5_counterexample :
    extractUpdatedFile ("```javascript\nx = 1\ny = 2\n```".toList) =
        some ("script\nx = 1\ny = 2".toList) ∧
    extractUpdatedFile ("```javascript\nx = 1\ny = 2\n```".toList) ≠
        some ("x = 1\ny = 2".toList) := by
  constructor <;> decide

/-- Claim C5 (amended): extraction returns the trimmed inner text of a
fenced code block, with the language tag ignored, for every listed tag
except `javascript` — whose fence is captured by the earlier `java` pattern,
leaving a `script` residue — and generic untagged fences are accepted; if no
fenced block exists, the whole trimmed response is returned exactly when it
is multi-line and none of its first three lines begins with a conversational
lead-in, and otherwise extraction is absent.  In particular the two spec
examples hold. -/
theorem C5_extraction :
    extractUpdatedFile ("```\ndef f():\n    return 1\n```".toList) =
        some ("def f():\n    return 1".toList) ∧
    extractUpdatedFile ("Sorry, I can't help".toList) = none ∧
    (∀ t ∈ fenceTags.filter (fun t => t ≠ "javascript".toList),
      extractUpdatedFile (("```".toList ++ t) ++ "\nx = 1\ny = 2\n```".toList) =
        some ("x = 1\ny = 2".toList)) ∧
    extractUpdatedFile ("```javascript\nx = 1\ny = 2\n```".toList) =
        some ("script\nx = 1\ny = 2".toList) ∧
    (∀ s : List Char, fenceSearch [] s = none →
      extractUpdatedFile s =
        if (splitNl (pyStrip s)).length > 1 &&
            !((splitNl (pyStrip s)).take 3).any looksLikeLead then
          some (pyStrip s)
        else
          none) := by
  refine ⟨by decide, by decide, by decide, by decide, ?_⟩
  intro s hno
  have hall : ∀ t ∈ fenceTags, fenceSearch t s = none := by
    intro t _
    cases hts : fenceSearch t s with
    | none => rfl
    | some g =>
      have h1 := fenceSearch_mono t s (by simp [hts])
      rw [hno] at h1
      simp at h1
  unfold extractUpdatedFile
  rw [firstFenceHit_none s fenceTags hall]

/-- Witness for C5 (amended): the no-fence clause applied to a concrete
multi-line non-prose response. -/
theorem C5_extraction_witness :
    extractUpdatedFile ("x = 1\ny = 2".toList) =
      if (splitNl (pyStrip ("x = 1\ny = 2".toList))).length > 1 &&
          !((splitNl (pyStrip ("x = 1\ny = 2".toList))).take 3).any looksLikeLead then
        some (pyStrip ("x = 1\ny = 2".toList))
      else
        none :=
  C5_extraction.2.2.2.2 ("x = 1\ny = 2".toList) (by decide)

/-- Counterexample for claim C7 as stated: with an empty prompt map (no
rule-specific template, no default), a run over one finding records *no*
result at all — the finding is skipped with only a printed message, so no
failed FixAttempt appears in the run's results or in the summary's failed
count. -/
theorem C7_counterexample :
    (processCodeSmells (demoEnv []) demoState [demoSmell "java:S1000"]).1 = [] := by
  rfl

/-- Claim C7 (amended): a finding whose rule resolves to no template (neither
rule-specific nor default) is skipped without recording any FixAttempt and
without touching any state, and processing of the remaining findings
continues exactly as if the finding were absent. -/
theorem C7_no_template {σ : Type} (env : Env σ) (branch0 : String)
    (st : OrchState σ) (smell : CodeSmell) (rest : List CodeSmell)
    (hres : resolvePromptTemplate env.ruleMap smell.rule = some none) :
    processLoop env branch0 st (smell :: rest) = processLoop env branch0 st rest := by
  have hstep : processOneSmell env branch0 st smell = (none, st) := by
    unfold processOneSmell
    rw [hres]
  simp [processLoop, hstep]

/-- Witness for C7 (amended): the concrete no-template run. -/
theorem C7_no_template_witness :
    processLoop (demoEnv []) "main" demoState [demoSmell "java:S1000"] =
      processLoop (demoEnv []) "main" demoState [] :=
  C7_no_template (demoEnv []) "main" demoState (demoSmell "java:S1000") [] (by decide)

/-- With a working branch already present, the commit stage never touches
the working branch, the branch-creation counter, or the fingerprint table
(the direct-commit path re-checks the branch but finds it set). -/
theorem commitStage_state {σ : Type} (env : Env σ) (st1 : OrchState σ)
    (smell : CodeSmell) (fixedContent : String) (usage : TokenUsage)
    (w : String) (hw : st1.working_branch = some w) :
    (commitStage env st1 smell fixedContent usage).2.working_branch = st1.working_branch ∧
    (commitStage env st1 smell fixedContent usage).2.createCalls = st1.createCalls ∧
    (commitStage env st1 smell fixedContent usage).2.db = st1.db := by
  unfold commitStage directCommitFix
  cases env.committer with
  | some com =>
    dsimp only
    split <;> simp
  | none =>
    simp only [hw]
    split <;> simp [hw]

/-- `_handle_single_fix` either leaves branch state alone, or — when no
working branch exists and creation succeeds — creates it exactly once; it
never touches the fingerprint table. -/
theorem handleSingleFix_state {σ : Type} (env : Env σ) (st : OrchState σ)
    (smell : CodeSmell) (fixedContent : String) (usage : TokenUsage)
    (hok : env.createBranchOk = true) :
    ((handleSingleFix env st smell fixedContent usage).2.working_branch = st.working_branch ∧
     (handleSingleFix env st smell fixedContent usage).2.createCalls = st.createCalls ∧
     (handleSingleFix env st smell fixedContent usage).2.db = st.db) ∨
    (st.working_branch = none ∧
     (handleSingleFix env st smell fixedContent usage).2.working_branch =
        some env.newBranchName ∧
     (handleSingleFix env st smell fixedContent usage).2.createCalls = st.createCalls + 1 ∧
     (handleSingleFix env st smell fixedContent usage).2.db = st.db) := by
  unfold handleSingleFix
  by_cases hdry : env.dry_run = true
  · left
    simp [hdry]
  · simp only [Bool.not_eq_true] at hdry
    cases hwb : st.working_branch with
    | none =>
      right
      simp only [hdry, Bool.false_eq_true, if_false, hwb]
      unfold createWorkingBranch
      simp only [hok, if_true]
      have h1 := commitStage_state env
        { st with working_branch := some env.newBranchName,
                  createCalls := st.createCalls + 1 } smell fixedContent usage
        env.newBranchName rfl
      exact ⟨by simp, by simpa using h1.1, by simpa using h1.2.1, by simpa using h1.2.2⟩
    | some w =>
      left
      simp only [hdry, Bool.false_eq_true, if_false, hwb]
      have h1 := commitStage_state env st smell fixedContent usage w hwb
      exact ⟨by rw [h1.1, hwb], by simpa using h1.2.1, by simpa using h1.2.2⟩

/-- Any row present after `mark_issue_fixed` was already present or is keyed
to the branch passed to the call. -/
theorem markIssueFixed_db_mem (ok : Bool) (db : Db) (smell : CodeSmell)
    (branch : String) (cid : Option String) (content : Option String) (now : Nat) :
    ∀ r ∈ (markIssueFixed ok db smell branch cid content now).2,
      r ∈ db ∨ r.branch = branch := by
  intro r hr
  cases ok with
  | false =>
    left
    simpa [markIssueFixed] using hr
  | true =>
    unfold markIssueFixed at hr
    simp only [Bool.not_true, Bool.false_eq_true, if_false] at hr
    rcases List.mem_append.mp hr with h1 | h2
    · left
      exact List.mem_of_mem_filter h1
    · right
      have hrw : r = mkFixedRow smell branch cid content now := by simpa using h2
      rw [hrw]
      rfl

/-- One loop iteration: branch state changes only by the one lazy branch
creation, and any row it adds to the fingerprint table is keyed to the
captured `branch0`. -/
theorem processOneSmell_state {σ : Type} (env : Env σ) (branch0 : String)
    (st : OrchState σ) (smell : CodeSmell)
    (hok : env.createBranchOk = true) :
    (((processOneSmell env branch0 st smell).2.working_branch = st.working_branch ∧
      (processOneSmell env branch0 st smell).2.createCalls = st.createCalls) ∨
     (st.working_branch = none ∧
      (processOneSmell env branch0 st smell).2.working_branch = some env.newBranchName ∧
      (processOneSmell env branch0 st smell).2.createCalls = st.createCalls + 1)) ∧
    (∀ r ∈ (processOneSmell env branch0 st smell).2.db,
      r ∈ st.db ∨ r.branch = branch0) := by
  unfold processOneSmell
  cases hres : resolvePromptTemplate env.ruleMap smell.rule with
  | none => exact ⟨Or.inl ⟨rfl, rfl⟩, fun r hr => Or.inl hr⟩
  | some o =>
    cases o with
    | none => exact ⟨Or.inl ⟨rfl, rfl⟩, fun r hr => Or.inl hr⟩
    | some prompt =>
      cases hfc : env.getFileContent smell.file_path with
      | none => exact ⟨Or.inl ⟨rfl, rfl⟩, fun r hr => Or.inl hr⟩
      | some content =>
        dsimp only
        by_cases hemp : content = ""
        · rw [if_pos hemp]
          exact ⟨Or.inl ⟨rfl, rfl⟩, fun r hr => Or.inl hr⟩
        · rw [if_neg hemp]
          cases hai : (env.aiFix smell content prompt).1 with
          | none => exact ⟨Or.inl ⟨rfl, rfl⟩, fun r hr => Or.inl hr⟩
          | some fixed =>
            dsimp only
            by_cases hfe : fixed = ""
            · rw [if_pos hfe]
              exact ⟨Or.inl ⟨rfl, rfl⟩, fun r hr => Or.inl hr⟩
            · rw [if_neg hfe]
              set p := handleSingleFix env st smell fixed (env.aiFix smell content prompt).2
                with hp
              have hh := handleSingleFix_state env st smell fixed
                (env.aiFix smell content prompt).2 hok
              rw [← hp] at hh
              have hdbeq : p.2.db = st.db := by
                rcases hh with ⟨_, _, h3⟩ | ⟨_, _, _, h3⟩ <;> exact h3
              by_cases hs : p.1.success = true ∧ ¬ env.dry_run = true
              · rw [if_pos hs]
                refine ⟨?_, ?_⟩
                · rcases hh with ⟨h1, h2, _⟩ | ⟨h0, h1, h2, _⟩
                  · exact Or.inl ⟨by simpa using h1, by simpa using h2⟩
                  · exact Or.inr ⟨h0, by simpa using h1, by simpa using h2⟩
                · intro r hr
                  have hdb := markIssueFixed_db_mem env.storageOk p.2.db smell
                    branch0 none (some fixed) env.now r (by simpa using hr)
                  rcases hdb with hin | hbr
                  · rw [hdbeq] at hin
                    exact Or.inl hin
                  · exact Or.inr hbr
              · rw [if_neg hs]
                refine ⟨?_, ?_⟩
                · rcases hh with ⟨h1, h2, _⟩ | ⟨h0, h1, h2, _⟩
                  · exact Or.inl ⟨by simpa using h1, by simpa using h2⟩
                  · exact Or.inr ⟨h0, by simpa using h1, by simpa using h2⟩
                · intro r hr
                  have hr2 : r ∈ p.2.db := by simpa using hr
                  rw [hdbeq] at hr2
                  exact Or.inl hr2

/-- Across the whole loop: the working branch is created at most once (and
then only the generated name), the creation counter counts that single
creation, and every new fingerprint row is keyed to the captured branch. -/
theorem processLoop_state {σ : Type} (env : Env σ) (branch0 : String)
    (hok : env.createBranchOk = true) :
    ∀ (smells : List CodeSmell) (st : OrchState σ),
      (((processLoop env branch0 st smells).2.working_branch = st.working_branch ∧
        (processLoop env branch0 st smells).2.createCalls = st.createCalls) ∨
       (st.working_branch = none ∧
        (processLoop env branch0 st smells).2.working_branch = some env.newBranchName ∧
        (processLoop env branch0 st smells).2.createCalls = st.createCalls + 1)) ∧
      (∀ r ∈ (processLoop env branch0 st smells).2.db,
        r ∈ st.db ∨ r.branch = branch0) := by
  intro smells
  induction smells with
  | nil =>
    intro st
    exact ⟨Or.inl ⟨rfl, rfl⟩, fun r hr => Or.inl hr⟩
  | cons smell rest ih =>
    intro st
    have hstep := processOneSmell_state env branch0 st smell hok
    have hrec := ih ((processOneSmell env branch0 st smell).2)
    have hgoal2 : (processLoop env branch0 st (smell :: rest)).2 =
        (processLoop env branch0 ((processOneSmell env branch0 st smell).2) rest).2 := by
      rfl
    rw [hgoal2]
    constructor
    · rcases hstep.1 with ⟨ha1, ha2⟩ | ⟨ha0, ha1, ha2⟩
      · rcases hrec.1 with ⟨hb1, hb2⟩ | ⟨hb0, hb1, hb2⟩
        · exact Or.inl ⟨by rw [hb1, ha1], by rw [hb2, ha2]⟩
        · refine Or.inr ⟨?_, hb1, by rw [hb2, ha2]⟩
          rw [← ha1]
          exact hb0
      · rcases hrec.1 with ⟨hb1, hb2⟩ | ⟨hb0, hb1, hb2⟩
        · exact Or.inr ⟨ha0, by rw [hb1, ha1], by rw [hb2, ha2]⟩
        · rw [ha1] at hb0
          exact absurd hb0 (by simp)
    · intro r hr
      rcases hrec.2 r hr with hin1 | hbr
      · rcases hstep.2 r hin1 with hin0 | hbr0
        · exact Or.inl hin0
        · exact Or.inr hbr0
      · exact Or.inr hbr

/-- Counterexample for claim C8 as stated: a live-mode run whose one fix
succeeds creates the working branch, yet the fingerprint record is keyed to
`"main"` — the base branch captured at the start of `_process_code_smells`,
before the working branch existed — not to the working branch. -/
theorem C8_counterexample :
    (processCodeSmells (demoEnv [("RSPEC-1000", "template")]) demoState
      [demoSmell "java:S1000"]).2.working_branch =
        some "sonar-agent-fixes-20240101_000000" ∧
    ((processCodeSmells (demoEnv [("RSPEC-1000", "template")]) demoState
      [demoSmell "java:S1000"]).2.db.map (fun r => r.branch)) = ["main"] ∧
    ("main" : String) ≠ "sonar-agent-fixes-20240101_000000" := by
  refine ⟨rfl, rfl, by decide⟩

/-- Claim C8 (amended): in live mode with branch creation succeeding, the
dedicated working branch is created at most once per run (the creation
counter rises by one exactly when a branch appears, and only the generated
name ever appears); but every fixed-issue record the run adds is keyed to
`current_branch` captured before the loop — the configured base branch —
not to the working branch. -/
theorem C8_branch_keying {σ : Type} (env : Env σ) (st : OrchState σ)
    (smells : List CodeSmell)
    (hwb : st.working_branch = none) (hok : env.createBranchOk = true) :
    (∀ r ∈ (processCodeSmells env st smells).2.db,
      r ∈ st.db ∨ r.branch = env.base_branch) ∧
    ((processCodeSmells env st smells).2.working_branch = none ∨
     (processCodeSmells env st smells).2.working_branch = some env.newBranchName) ∧
    (processCodeSmells env st smells).2.createCalls =
      st.createCalls +
        (if (processCodeSmells env st smells).2.working_branch = none then 0 else 1) := by
  have hb0 : st.working_branch.getD env.base_branch = env.base_branch := by
    rw [hwb]
    rfl
  have heq : processCodeSmells env st smells =
      processLoop env env.base_branch st
        (smells.filter (fun s =>
          (lookupFixed st.db s.key env.base_branch).isNone)) := by
    unfold processCodeSmells
    dsimp only
    rw [filterUnfixedIssues_spec st.db (st.working_branch.getD env.base_branch) smells, hb0]
  rw [heq]
  have hmain := processLoop_state env env.base_branch hok
    (smells.filter (fun s => (lookupFixed st.db s.key env.base_branch).isNone)) st
  refine ⟨hmain.2, ?_, ?_⟩
  · rcases hmain.1 with ⟨h1, _⟩ | ⟨_, h1, _⟩
    · left
      rw [h1, hwb]
    · right
      exact h1
  · rcases hmain.1 with ⟨h1, h2⟩ | ⟨_, h1, h2⟩
    · rw [h1, hwb, if_pos rfl, h2]
      omega
    · rw [h1, h2, if_neg (by simp)]

/-- Witness for C8 (amended): the concrete one-fix live run. -/
theorem C8_branch_keying_witness :
    (∀ r ∈ (processCodeSmells (demoEnv [("RSPEC-1000", "template")]) demoState
        [demoSmell "java:S1000"]).2.db,
      r ∈ demoState.db ∨ r.branch = (demoEnv [("RSPEC-1000", "template")]).base_branch) ∧
    ((processCodeSmells (demoEnv [("RSPEC-1000", "template")]) demoState
        [demoSmell "java:S1000"]).2.working_branch = none ∨
     (processCodeSmells (demoEnv [("RSPEC-1000", "template")]) demoState
        [demoSmell "java:S1000"]).2.working_branch =
       some (demoEnv [("RSPEC-1000", "template")]).newBranchName) ∧
    (processCodeSmells (demoEnv [("RSPEC-1000", "template")]) demoState
        [demoSmell "java:S1000"]).2.createCalls =
      demoState.createCalls +
        (if (processCodeSmells (demoEnv [("RSPEC-1000", "template")]) demoState
            [demoSmell "java:S1000"]).2.working_branch = none then 0 else 1) :=
  C8_branch_keying (demoEnv [("RSPEC-1000", "template")]) demoState
    [demoSmell "java:S1000"] rfl rfl

end SonarAgent
